import Mathlib

/-!
Verification of the instagram-watcher core.

This development shallowly embeds the core of the repository:

* the TTL cache of src/src/utils/cache.ts (a thin wrapper over node-cache:
  entries carry an absolute expiry time in milliseconds, a read treats a
  logically expired entry as absent);
* the bounded-retry executor withRetry of src/src/event-detector.ts;
* the per-post deduplication/classification pipeline of
  scrapeAndDetectEvents / analyzePostWithOpenAI / storeEventInSupabase in
  src/src/event-detector.ts;
* the followings-statistics computation of
  src/src/pages/api/followings/stats.ts.

Asynchrony is embedded by explicit state passing: the cache, the persistent
store and the various call counters are threaded through each function, and
wall-clock time is an explicit parameter in milliseconds.  External
collaborators (the OpenAI classification service, the Supabase database,
the Instagram scraper) are oracles supplied as function arguments.
-/

namespace InstagramWatcher

/-! ### TTL cache (src/src/utils/cache.ts over node-cache)

A cache is an association list of entries (key, value, expiresAt) with
expiresAt an absolute time in milliseconds; node-cache stores the expiry
as now + ttl * 1000 and uses 0 for a never-expiring entry (ttl = 0).
A read treats an entry as absent exactly when its expiry is nonzero and
strictly in the past, mirroring node-cache's internal check
(data.t !== 0 && data.t < Date.now()). -/

abbrev Cache (V : Type) := List (String × V × Nat)

/-- Find the entry stored under a key, with its absolute expiry time. -/
def cacheFind {V : Type} (c : Cache V) (key : String) : Option (V × Nat) :=
  match c.find? (fun e => e.1 == key) with
  | none => none
  | some e => some e.2

/-- getCached of cache.ts: a lookup that treats an expired entry as absent. -/
def getCached {V : Type} (c : Cache V) (now : Nat) (key : String) : Option V :=
  match cacheFind c key with
  | none => none
  | some (v, t) => if t ≠ 0 ∧ t < now then none else some v

/-- setCached of cache.ts: overwrite the key with the value, expiring
ttl seconds from now (node-cache stores expiry 0 when ttl = 0). -/
def setCached {V : Type} (c : Cache V) (now : Nat) (key : String) (v : V) (ttl : Nat) : Cache V :=
  (key, v, if ttl = 0 then 0 else now + ttl * 1000) :: c.filter (fun e => e.1 != key)

/-- getCachedOrCompute of cache.ts.  The producer is a fallible asynchronous
computation, embedded as an Except value; the third component of the result
counts how many times the producer was invoked (0 on a hit, 1 on a miss).
On a miss with a failing producer the error propagates and nothing is
written to the cache. -/
def getCachedOrCompute {E V : Type} (c : Cache V) (now : Nat) (key : String)
    (producer : Except E V) (ttl : Nat) : Except E V × Cache V × Nat :=
  match getCached c now key with
  | some v => (Except.ok v, c, 0)
  | none =>
    match producer with
    | Except.error e => (Except.error e, c, 1)
    | Except.ok v => (Except.ok v, setCached c now key v ttl, 1)

/-! Basic cache lemmas. -/

theorem cacheFind_setCached_self {V : Type} (c : Cache V) (now : Nat) (key : String)
    (v : V) (ttl : Nat) :
    cacheFind (setCached c now key v ttl) key
      = some (v, if ttl = 0 then 0 else now + ttl * 1000) := by
  simp [cacheFind, setCached, List.find?]

theorem find?_filter_ne_key {V : Type} (key k : String) (hne : key ≠ k) (c : Cache V) :
    (c.filter (fun e => e.1 != key)).find? (fun e => e.1 == k)
      = c.find? (fun e => e.1 == k) := by
  induction c with
  | nil => rfl
  | cons e tl ih =>
    rw [List.filter_cons]
    by_cases hk : e.1 = k
    · have h1 : (e.1 != key) = true := by simp [bne, hk, Ne.symm hne]
      rw [if_pos h1, List.find?_cons_of_pos _ (by simp [hk]),
        List.find?_cons_of_pos _ (by simp [hk])]
    · rw [List.find?_cons_of_neg _ (by simp [hk])]
      by_cases hkey : (e.1 != key) = true
      · rw [if_pos hkey, List.find?_cons_of_neg _ (by simp [hk])]
        exact ih
      · rw [if_neg hkey]
        exact ih

theorem cacheFind_setCached_other {V : Type} (c : Cache V) (now : Nat) (key k : String)
    (v : V) (ttl : Nat) (hne : key ≠ k) :
    cacheFind (setCached c now key v ttl) k = cacheFind c k := by
  unfold cacheFind setCached
  rw [List.find?_cons_of_neg _ (by simp [hne]), find?_filter_ne_key key k hne c]

theorem getCached_setCached_other {V : Type} (c : Cache V) (now t₂ : Nat) (key k : String)
    (v : V) (ttl : Nat) (hne : key ≠ k) :
    getCached (setCached c now key v ttl) t₂ k = getCached c t₂ k := by
  unfold getCached
  rw [cacheFind_setCached_other c now key k v ttl hne]

theorem getCached_setCached_self {V : Type} (c : Cache V) (now t₂ : Nat) (key : String)
    (v : V) (ttl : Nat) (httl : ttl ≠ 0) :
    getCached (setCached c now key v ttl) t₂ key
      = if now + ttl * 1000 < t₂ then none else some v := by
  unfold getCached
  rw [cacheFind_setCached_self]
  have hpos : now + ttl * 1000 ≠ 0 := by positivity
  simp [httl, hpos]

/-- Claim C4: for every key k, value v and TTL t > 0, a get issued strictly
before t seconds have elapsed since set(k, v, t) returns v, and a get issued
after t seconds have elapsed returns absent: a logically expired entry is
never returned. -/
theorem cache_ttl_get_set {V : Type} (c : Cache V) (k : String) (v : V)
    (t setTime getTime : Nat) (ht : 0 < t) :
    (getTime < setTime + t * 1000 →
       getCached (setCached c setTime k v t) getTime k = some v) ∧
    (setTime + t * 1000 < getTime →
       getCached (setCached c setTime k v t) getTime k = none) := by
  have h := getCached_setCached_self c setTime getTime k v t (Nat.pos_iff_ne_zero.mp ht)
  constructor
  · intro hlt
    rw [h, if_neg (by omega)]
  · intro hgt
    rw [h, if_pos hgt]

/-- Witness for C4 at a concrete input. -/
theorem cache_ttl_get_set_witness :
    (1500 < (0 : Nat) + 2 * 1000 ∧
       getCached (setCached ([] : Cache Nat) 0 "k" 7 2) 1500 "k" = some 7) ∧
    ((0 : Nat) + 2 * 1000 < 2500 ∧
       getCached (setCached ([] : Cache Nat) 0 "k" 7 2) 2500 "k" = none) :=
  ⟨⟨by decide, (cache_ttl_get_set ([] : Cache Nat) "k" 7 2 0 1500 (by decide)).1 (by decide)⟩,
   ⟨by decide, (cache_ttl_get_set ([] : Cache Nat) "k" 7 2 0 2500 (by decide)).2 (by decide)⟩⟩

/-- Claim C6: two getOrCompute calls in immediate succession with the same
key and a successful producer invoke the producer at most once: the first
call (a miss) invokes the producer exactly once and stores its result under
the key's TTL; the second call (a hit, issued at any time before the entry
expires) returns the stored value with zero producer invocations. -/
theorem getCachedOrCompute_single_producer_invocation {E V : Type} (c : Cache V)
    (k : String) (now now₂ ttl : Nat) (v w : V)
    (hmiss : getCached c now k = none) (httl : 0 < ttl)
    (hexp : now₂ ≤ now + ttl * 1000) :
    getCachedOrCompute (E := E) c now k (Except.ok v) ttl
      = (Except.ok v, setCached c now k v ttl, 1) ∧
    getCachedOrCompute (E := E) (setCached c now k v ttl) now₂ k (Except.ok w) ttl
      = (Except.ok v, setCached c now k v ttl, 0) := by
  constructor
  · unfold getCachedOrCompute
    rw [hmiss]
  · unfold getCachedOrCompute
    rw [getCached_setCached_self c now now₂ k v ttl (Nat.pos_iff_ne_zero.mp httl),
      if_neg (by omega)]

/-- Witness for C6 at a concrete input. -/
theorem getCachedOrCompute_single_producer_invocation_witness :
    getCachedOrCompute (E := Unit) ([] : Cache Nat) 0 "k" (Except.ok 5) 10
      = (Except.ok 5, setCached ([] : Cache Nat) 0 "k" 5 10, 1) ∧
    getCachedOrCompute (E := Unit) (setCached ([] : Cache Nat) 0 "k" 5 10) 3 "k"
        (Except.ok 99) 10
      = (Except.ok 5, setCached ([] : Cache Nat) 0 "k" 5 10, 0) :=
  getCachedOrCompute_single_producer_invocation ([] : Cache Nat) "k" 0 3 10 5 99
    (by decide) (by decide) (by decide)

/-- Claim C7: on a cache miss, a failing producer's error propagates to the
caller and nothing is written to the cache: the returned cache is the input
cache and the key still reports absent afterwards. -/
theorem getCachedOrCompute_error_uncached {E V : Type} (c : Cache V) (k : String)
    (now ttl : Nat) (e : E) (hmiss : getCached c now k = none) :
    getCachedOrCompute (E := E) (V := V) c now k (Except.error e) ttl
      = (Except.error e, c, 1) ∧
    getCached (getCachedOrCompute (E := E) (V := V) c now k (Except.error e) ttl).2.1 now k
      = none := by
  have h : getCachedOrCompute (E := E) (V := V) c now k (Except.error e) ttl
      = (Except.error e, c, 1) := by
    unfold getCachedOrCompute
    rw [hmiss]
  exact ⟨h, by rw [h]; exact hmiss⟩

/-- Witness for C7 at a concrete input. -/
theorem getCachedOrCompute_error_uncached_witness :
    getCachedOrCompute (E := String) (V := Nat) ([] : Cache Nat) 0 "k"
        (Except.error "boom") 10
      = (Except.error "boom", ([] : Cache Nat), 1) ∧
    getCached (getCachedOrCompute (E := String) (V := Nat) ([] : Cache Nat) 0 "k"
        (Except.error "boom") 10).2.1 0 "k" = none :=
  getCachedOrCompute_error_uncached ([] : Cache Nat) "k" 0 10 "boom" (by decide)

/-! ### Retry executor (withRetry of src/src/event-detector.ts)

withRetry runs fn for attempt = 1, 2, ..., retries; a success returns at
once; after a failed attempt k < retries it waits delayMs * 2 ^ (k - 1)
and retries; after the final failed attempt it throws the last observed
error (or, when retries = 0 so that no attempt ran, the generic
"All retries failed" error, embedded as Except.error none).

The operation is embedded as a function from the attempt number (1-based)
to that attempt's outcome.  Besides the result the embedding returns the
number of invocations of the operation and a trace of the schedule:
attempts and the waits inserted between them, in order. -/

/-- Configuration constants of src/src/event-detector.ts. -/
def MAX_RETRIES : Nat := 3

def RETRY_DELAY : Nat := 5000

inductive RetryEvent where
  | attemptCall : Nat → RetryEvent
  | waitDelay : Nat → RetryEvent
deriving DecidableEq, Repr

/-- The retry loop: current attempt number and number of attempts still
allowed (including the current one). -/
def withRetryGo {E V : Type} (fn : Nat → Except E V) (delayMs : Nat) :
    Nat → Nat → Option E → Except (Option E) V × Nat × List RetryEvent
  | _, 0, lastError => (Except.error lastError, 0, [])
  | attempt, remaining + 1, _ =>
    match fn attempt with
    | Except.ok v => (Except.ok v, 1, [RetryEvent.attemptCall attempt])
    | Except.error e =>
      if remaining = 0 then
        (Except.error (some e), 1, [RetryEvent.attemptCall attempt])
      else
        let backoffTime := delayMs * 2 ^ (attempt - 1)
        let r := withRetryGo fn delayMs (attempt + 1) remaining (some e)
        (r.1, r.2.1 + 1,
          RetryEvent.attemptCall attempt :: RetryEvent.waitDelay backoffTime :: r.2.2)

/-- withRetry of src/src/event-detector.ts: result, number of invocations
of the operation, and the attempt/wait schedule. -/
def withRetry {E V : Type} (fn : Nat → Except E V) (retries delayMs : Nat) :
    Except (Option E) V × Nat × List RetryEvent :=
  withRetryGo fn delayMs 1 retries none

/-- The schedule produced by j consecutive failed attempts starting at
attempt number a: each failed attempt is followed by its backoff wait. -/
def backoffTrace (delayMs : Nat) : Nat → Nat → List RetryEvent
  | _, 0 => []
  | a, j + 1 =>
    RetryEvent.attemptCall a :: RetryEvent.waitDelay (delayMs * 2 ^ (a - 1)) ::
      backoffTrace delayMs (a + 1) j

theorem backoffTrace_length (delayMs : Nat) (a j : Nat) :
    (backoffTrace delayMs a j).length = 2 * j := by
  induction j generalizing a with
  | zero => rfl
  | succ j ih =>
    simp only [backoffTrace, List.length_cons, ih (a + 1)]
    omega

/-- If fn fails on attempts a, ..., a + j - 1 and succeeds on attempt a + j,
with j < remaining, the loop returns that success after exactly j + 1
invocations, the schedule being the j failures (each with its wait) and the
final successful attempt. -/
theorem withRetryGo_ok {E V : Type} (fn : Nat → Except E V) (delayMs : Nat)
    (j : Nat) :
    ∀ (a rem : Nat) (lastE : Option E) (v : V),
    (∀ i, a ≤ i → i < a + j → ∃ e, fn i = Except.error e) →
    fn (a + j) = Except.ok v → j < rem →
    withRetryGo fn delayMs a rem lastE
      = (Except.ok v, j + 1,
          backoffTrace delayMs a j ++ [RetryEvent.attemptCall (a + j)]) := by
  induction j with
  | zero =>
    intro a rem lastE v _ hok hj
    obtain ⟨rem', rfl⟩ := Nat.exists_eq_succ_of_ne_zero (by omega : rem ≠ 0)
    simp only [withRetryGo]
    rw [show a + 0 = a from rfl] at hok
    rw [hok]
    rfl
  | succ j ih =>
    intro a rem lastE v hfail hok hj
    obtain ⟨rem', rfl⟩ := Nat.exists_eq_succ_of_ne_zero (by omega : rem ≠ 0)
    obtain ⟨e, he⟩ := hfail a (Nat.le_refl a) (by omega)
    simp only [withRetryGo, he]
    rw [if_neg (by omega : ¬rem' = 0)]
    have hrec := ih (a + 1) rem' (some e) v
      (fun i h1 h2 => hfail i (by omega) (by omega))
      (by rw [show a + 1 + j = a + (j + 1) by omega]; exact hok) (by omega)
    rw [hrec]
    simp [backoffTrace, show a + 1 + j = a + (j + 1) by omega]

/-- If fn fails on all of attempts a, ..., a + rem - 1 (rem ≥ 1), the loop
makes exactly rem invocations and throws the error of the final attempt;
the schedule is rem - 1 failures with waits followed by the final attempt. -/
theorem withRetryGo_allFail {E V : Type} (fn : Nat → Except E V) (delayMs : Nat)
    (rem : Nat) :
    ∀ (a : Nat) (lastE : Option E) (e : E),
    0 < rem →
    (∀ i, a ≤ i → i < a + rem → ∃ e', fn i = Except.error e') →
    fn (a + rem - 1) = Except.error e →
    withRetryGo fn delayMs a rem lastE
      = (Except.error (some e), rem,
          backoffTrace delayMs a (rem - 1)
            ++ [RetryEvent.attemptCall (a + rem - 1)]) := by
  induction rem with
  | zero => intro a lastE e h; omega
  | succ rem ih =>
    intro a lastE e _ hfail hlast
    by_cases hr : rem = 0
    · subst hr
      simp only [withRetryGo]
      rw [show a + 1 - 1 = a by omega] at hlast
      rw [hlast]
      rfl
    · obtain ⟨e₀, he₀⟩ := hfail a (Nat.le_refl a) (by omega)
      simp only [withRetryGo, he₀]
      rw [if_neg hr]
      have hrec := ih (a + 1) (some e₀) e (by omega)
        (fun i h1 h2 => hfail i (by omega) (by omega))
        (by rw [show a + 1 + rem - 1 = a + (rem + 1) - 1 by omega]; exact hlast)
      have htr : backoffTrace delayMs a (rem + 1 - 1)
          = RetryEvent.attemptCall a :: RetryEvent.waitDelay (delayMs * 2 ^ (a - 1)) ::
              backoffTrace delayMs (a + 1) (rem - 1) := by
        rw [show rem + 1 - 1 = (rem - 1) + 1 by omega]
        rfl
      rw [hrec, htr]
      simp [show a + 1 + rem - 1 = a + (rem + 1) - 1 by omega]

/-- Claim C3: with maxAttempts n ≥ 1, if the operation fails on its first
k - 1 calls and succeeds on call k ≤ n, withRetry returns that success and
invoked the operation exactly k times; if the operation fails on all of its
first n calls, withRetry makes exactly n invocations and throws the error
observed on the n-th (final) attempt, not the generic exhaustion error. -/
theorem withRetry_attempt_semantics {E V : Type} (fn : Nat → Except E V)
    (n delayMs : Nat) (hn : 1 ≤ n) :
    (∀ k v, 1 ≤ k → k ≤ n →
      (∀ i, 1 ≤ i → i < k → ∃ e, fn i = Except.error e) →
      fn k = Except.ok v →
      (withRetry fn n delayMs).1 = Except.ok v ∧ (withRetry fn n delayMs).2.1 = k) ∧
    (∀ e, (∀ i, 1 ≤ i → i ≤ n → ∃ e', fn i = Except.error e') →
      fn n = Except.error e →
      (withRetry fn n delayMs).1 = Except.error (some e) ∧
        (withRetry fn n delayMs).2.1 = n) := by
  constructor
  · intro k v hk1 hkn hfail hok
    have h := withRetryGo_ok fn delayMs (k - 1) 1 n none v
      (fun i h1 h2 => hfail i h1 (by omega))
      (by rw [show 1 + (k - 1) = k by omega]; exact hok) (by omega)
    unfold withRetry
    rw [h]
    exact ⟨rfl, by simp; omega⟩
  · intro e hfail hlast
    have h := withRetryGo_allFail fn delayMs n 1 none e (by omega)
      (fun i h1 h2 => hfail i h1 (by omega))
      (by rw [show 1 + n - 1 = n by omega]; exact hlast)
    unfold withRetry
    rw [h]
    exact ⟨rfl, rfl⟩

/-- Witness for C3 at a concrete input: an operation failing on attempt 1
and succeeding on attempt 2, with maxAttempts 3; and an operation failing
on every attempt, with maxAttempts 3. -/
theorem withRetry_attempt_semantics_witness :
    ((withRetry (fun i => if i < 2 then Except.error i else Except.ok 42) 3 5000).1
        = Except.ok 42 ∧
     (withRetry (fun i => if i < 2 then Except.error i else Except.ok 42) 3 5000).2.1
        = 2) ∧
    ((withRetry (fun i => (Except.error i : Except Nat Nat)) 3 5000).1
        = Except.error (some 3) ∧
     (withRetry (fun i => (Except.error i : Except Nat Nat)) 3 5000).2.1 = 3) :=
  ⟨(withRetry_attempt_semantics (fun i => if i < 2 then Except.error i else Except.ok 42)
      3 5000 (by decide)).1 2 42 (by decide) (by decide)
      (fun i h1 h2 => ⟨i, by rw [if_pos (by omega)]⟩) rfl,
   (withRetry_attempt_semantics (fun i => (Except.error i : Except Nat Nat))
      3 5000 (by decide)).2 3 (fun i h1 h2 => ⟨i, rfl⟩) rfl⟩

theorem backoffTrace_get_attempt (delayMs : Nat) (j : Nat) :
    ∀ a i, i < j →
      (backoffTrace delayMs a j).get? (2 * i)
        = some (RetryEvent.attemptCall (a + i)) ∧
      (backoffTrace delayMs a j).get? (2 * i + 1)
        = some (RetryEvent.waitDelay (delayMs * 2 ^ (a + i - 1))) := by
  induction j with
  | zero => intro a i h; omega
  | succ j ih =>
    intro a i hi
    match i with
    | 0 => exact ⟨rfl, rfl⟩
    | i + 1 =>
      have h2 : 2 * (i + 1) = (2 * i) + 2 := by omega
      have h := ih (a + 1) i (by omega)
      constructor
      · rw [h2]
        simpa [backoffTrace, List.get?, show a + 1 + i = a + (i + 1) by omega] using h.1
      · rw [h2]
        simpa [backoffTrace, List.get?, show a + 1 + i = a + (i + 1) by omega] using h.2

/-- If fn fails on attempts a, ..., a + j - 1 with j < remaining, the
schedule of the loop starts with those j failures and their waits, followed
by the schedule of the loop restarted at attempt a + j. -/
theorem withRetryGo_trace_prefix {E V : Type} (fn : Nat → Except E V) (delayMs : Nat)
    (j : Nat) :
    ∀ (a rem : Nat) (lastE : Option E),
    (∀ i, a ≤ i → i < a + j → ∃ e, fn i = Except.error e) → j < rem →
    ∃ lastE', (withRetryGo fn delayMs a rem lastE).2.2
      = backoffTrace delayMs a j
          ++ (withRetryGo fn delayMs (a + j) (rem - j) lastE').2.2 := by
  induction j with
  | zero =>
    intro a rem lastE _ _
    exact ⟨lastE, by simp [backoffTrace]⟩
  | succ j ih =>
    intro a rem lastE hfail hj
    obtain ⟨rem', rfl⟩ := Nat.exists_eq_succ_of_ne_zero (by omega : rem ≠ 0)
    obtain ⟨e, he⟩ := hfail a (Nat.le_refl a) (by omega)
    obtain ⟨lastE', hrec⟩ := ih (a + 1) rem' (some e)
      (fun i h1 h2 => hfail i (by omega) (by omega)) (by omega)
    refine ⟨lastE', ?_⟩
    simp only [withRetryGo, he]
    rw [if_neg (by omega : ¬rem' = 0)]
    simp only [backoffTrace, List.cons_append]
    rw [show rem' + 1 - (j + 1) = rem' - j by omega,
      show a + (j + 1) = a + 1 + j by omega]
    simpa using hrec

/-- Whatever fn does, the first event of the schedule is attempt a with no
preceding wait (provided at least one attempt is allowed). -/
theorem withRetryGo_head {E V : Type} (fn : Nat → Except E V) (delayMs : Nat)
    (a rem : Nat) (lastE : Option E) (hrem : 0 < rem) :
    (withRetryGo fn delayMs a rem lastE).2.2.head?
      = some (RetryEvent.attemptCall a) := by
  obtain ⟨rem', rfl⟩ := Nat.exists_eq_succ_of_ne_zero (by omega : rem ≠ 0)
  cases hfn : fn a <;> by_cases hr : rem' = 0 <;> simp [withRetryGo, hfn, hr]

/-- Claim C8: attempt 1 runs with no preceding wait, and whenever the first
k attempts fail with k < maxAttempts, the single wait inserted between
attempt k and attempt k + 1 equals delayMs * 2 ^ (k - 1) exactly (pure
exponential backoff, no ceiling). -/
theorem withRetry_exponential_backoff {E V : Type} (fn : Nat → Except E V)
    (n delayMs : Nat) (hn : 1 ≤ n) :
    (withRetry fn n delayMs).2.2.head? = some (RetryEvent.attemptCall 1) ∧
    (∀ k, 1 ≤ k → k < n →
      (∀ i, 1 ≤ i → i ≤ k → ∃ e, fn i = Except.error e) →
      (withRetry fn n delayMs).2.2.get? (2 * k - 1)
          = some (RetryEvent.waitDelay (delayMs * 2 ^ (k - 1))) ∧
      (withRetry fn n delayMs).2.2.get? (2 * k)
          = some (RetryEvent.attemptCall (k + 1))) := by
  constructor
  · exact withRetryGo_head fn delayMs 1 n none (by omega)
  · intro k hk1 hkn hfail
    obtain ⟨lastE', htr⟩ := withRetryGo_trace_prefix fn delayMs k 1 n none
      (fun i h1 h2 => hfail i h1 (by omega)) (by omega)
    unfold withRetry
    rw [htr]
    have hlen : (backoffTrace delayMs 1 k).length = 2 * k := backoffTrace_length delayMs 1 k
    have hget := backoffTrace_get_attempt delayMs k 1 (k - 1) (by omega)
    constructor
    · rw [List.get?_append (by omega)]
      have h21 : 2 * k - 1 = 2 * (k - 1) + 1 := by omega
      rw [h21]
      rw [hget.2]
      have : 1 + (k - 1) - 1 = k - 1 := by omega
      rw [this]
    · rw [List.get?_append_right (by omega), hlen, Nat.sub_self]
      have hhead := withRetryGo_head fn delayMs (1 + k) (n - k) lastE' (by omega)
      rw [List.get?_zero, hhead, Nat.add_comm 1 k]

/-- Witness for C8 at a concrete input: an always-failing operation with
maxAttempts 3 and base delay 5000 waits 5000 between attempts 1 and 2 and
10000 between attempts 2 and 3. -/
theorem withRetry_exponential_backoff_witness :
    (withRetry (fun i => (Except.error i : Except Nat Nat)) 3 5000).2.2.head?
        = some (RetryEvent.attemptCall 1) ∧
    (withRetry (fun i => (Except.error i : Except Nat Nat)) 3 5000).2.2.get? 3
        = some (RetryEvent.waitDelay 10000) ∧
    (withRetry (fun i => (Except.error i : Except Nat Nat)) 3 5000).2.2.get? 4
        = some (RetryEvent.attemptCall 3) := by
  have h := withRetry_exponential_backoff
    (fun i => (Except.error i : Except Nat Nat)) 3 5000 (by decide)
  have h2 := h.2 2 (by decide) (by decide) (fun i h1 h2 => ⟨i, rfl⟩)
  exact ⟨h.1, by simpa using h2.1, by simpa using h2.2⟩

/-! ### Classification pipeline (src/src/event-detector.ts)

The pipeline data model.  JavaScript "x || y" on strings treats the empty
string as falsy; jsOrString embeds that. -/

def MIN_CONFIDENCE_THRESHOLD : Int := 90

def FOLLOWINGS_CACHE_TTL : Nat := 60 * 60 * 4 - 60 * 5

def OPENAI_ANALYSIS_CACHE_TTL : Nat := 60 * 60 * 24 * 7

/-- JavaScript "a || b" for an optional string (undefined/null and "" are
falsy). -/
def jsOrString (a : Option String) (b : String) : String :=
  match a with
  | none => b
  | some s => if s = "" then b else s

/-- An Instagram post as delivered by the scraper (the fields read by the
pipeline).  The timestamp is in seconds. -/
structure InstagramPost where
  id : String
  shortcode : String
  url : Option String
  caption : Option String
  display_url : Option String
  image_url : Option String
  timestamp : Option Nat
deriving DecidableEq, Repr

/-- The classification verdict parsed from the OpenAI response:
isEvent, optional eventType, opaque eventDetails payload, and a
confidence score. -/
structure Analysis where
  isEvent : Bool
  eventType : Option String
  eventDetails : Option String
  confidenceScore : Int
deriving DecidableEq, Repr

/-- A row of the instagram_events store (EventPost of event-detector.ts).
post_date abstracts the ISO date string by the instant it denotes, in
milliseconds. -/
structure EventPost where
  account : String
  post_id : String
  post_url : String
  post_date : Nat
  caption : Option String
  image_url : Option String
  is_event : Bool
  event_type : Option String
  event_details : String
  confidence_score : Int
deriving DecidableEq, Repr

/-- The instagram_events table, newest row first. -/
abbrev EventsDb := List EventPost

/-- The membership probe of scrapeAndDetectEvents: does a row with this
post_id exist? -/
def eventExists (db : EventsDb) (pid : String) : Bool :=
  db.any (fun e => e.post_id == pid)

/-- storeEventInSupabase of event-detector.ts: an upsert keyed by post_id
(onConflict post_id), so a second upsert for the same id overwrites the
earlier row rather than duplicating it. -/
def storeEventInSupabase (db : EventsDb) (e : EventPost) : EventsDb :=
  e :: db.filter (fun x => x.post_id != e.post_id)

/-- The outcome of one OpenAI analysis attempt for a post, as distinguished
by the control flow of analyzePostWithOpenAI: every retry attempt of the
wrapped call failed; the response had no choices; the response text held no
JSON object; JSON.parse failed; or a parsed verdict. -/
inductive OpenAIOutcome where
  | retriesExhausted
  | emptyChoices
  | noJsonInResponse
  | jsonParseFailure
  | parsedResponse (a : Analysis)
deriving DecidableEq, Repr

/-- The fallback verdict returned on every failure path of
analyzePostWithOpenAI. -/
def fallbackAnalysis : Analysis :=
  { isEvent := false, eventType := none, eventDetails := none, confidenceScore := 0 }

/-- The producer passed by analyzePostWithOpenAI to getCachedOrCompute:
every failure path is swallowed and mapped to the fallback verdict, so the
producer always returns successfully. -/
def openAIProducer : OpenAIOutcome → Analysis
  | OpenAIOutcome.retriesExhausted => fallbackAnalysis
  | OpenAIOutcome.emptyChoices => fallbackAnalysis
  | OpenAIOutcome.noJsonInResponse => fallbackAnalysis
  | OpenAIOutcome.jsonParseFailure => fallbackAnalysis
  | OpenAIOutcome.parsedResponse a => a

/-- The cache key of analyzePostWithOpenAI. -/
def postAnalysisKey (pid : String) : String := "post_analysis:" ++ pid

/-- analyzePostWithOpenAI of event-detector.ts: getCachedOrCompute under
postAnalysisKey with the 7-day TTL; the oracle gives the outcome OpenAI
would produce for this post id.  Returns the verdict, the new cache, and
the number of OpenAI invocations (0 on a cache hit, 1 on a miss). -/
def analyzePostWithOpenAI (oracle : String → OpenAIOutcome) (c : Cache Analysis)
    (now : Nat) (pid : String) : Analysis × Cache Analysis × Nat :=
  match getCachedOrCompute (E := Empty) c now (postAnalysisKey pid)
      (Except.ok (openAIProducer (oracle pid))) OPENAI_ANALYSIS_CACHE_TTL with
  | (Except.ok a, c', cnt) => (a, c', cnt)
  | (Except.error e, _, _) => e.elim

/-- The layers of the deduplication guard, in the order the pipeline
consults them, plus the classifier invocation. -/
inductive LayerCheck where
  | runLocalSet
  | storeMembership
  | cacheLookup
  | classifierCall
deriving DecidableEq, Repr

/-- The mutable state of one scrapeAndDetectEvents run (plus the log
classified of post ids for which the OpenAI service was invoked). -/
structure RunState where
  analyzedPostIds : List String
  db : EventsDb
  cache : Cache Analysis
  events : List EventPost
  cacheHits : Nat
  cacheMisses : Nat
  totalEvents : Nat
  classified : List String
deriving Repr

/-- The EventPost built at lines 377-388 of event-detector.ts. -/
def mkEventPost (username : String) (post : InstagramPost) (analysis : Analysis)
    (now : Nat) : EventPost :=
  { account := username
    post_id := post.id
    post_url := jsOrString post.url ("https://www.instagram.com/p/" ++ post.shortcode ++ "/")
    post_date :=
      match post.timestamp with
      | some t => if t = 0 then now else t * 1000
      | none => now
    caption := post.caption
    image_url :=
      (fun s => if s = "" then none else some s)
        (jsOrString post.display_url (jsOrString post.image_url ""))
    is_event := true
    event_type := some (jsOrString analysis.eventType "other")
    event_details := jsOrString analysis.eventDetails "\x7b\x7d"
    confidence_score := analysis.confidenceScore }

/-- Lines 364-397 of event-detector.ts: persist the verdict when it is an
event with confidence at or above the threshold, otherwise do nothing. -/
def handleVerdict (username : String) (post : InstagramPost) (analysis : Analysis)
    (now : Nat) (st : RunState) : RunState :=
  if analysis.isEvent = true ∧ analysis.confidenceScore ≥ MIN_CONFIDENCE_THRESHOLD then
    let eventPost := mkEventPost username post analysis now
    { st with totalEvents := st.totalEvents + 1,
              db := storeEventInSupabase st.db eventPost,
              events := st.events ++ [eventPost] }
  else st

/-- The body of the per-post loop of scrapeAndDetectEvents (lines 326-405):
run-local set, store membership, cache peek + analyzePostWithOpenAI, and the
verdict handling.  Also returns which deduplication layers were consulted,
in order, ending in classifierCall when the OpenAI service was invoked. -/
def processPost (oracle : String → OpenAIOutcome) (now : Nat) (username : String)
    (st : RunState) (post : InstagramPost) : RunState × List LayerCheck :=
  if st.analyzedPostIds.contains post.id then
    (st, [LayerCheck.runLocalSet])
  else
    let st1 := { st with analyzedPostIds := post.id :: st.analyzedPostIds }
    if eventExists st1.db post.id then
      ({ st1 with cacheHits := st1.cacheHits + 1 },
       [LayerCheck.runLocalSet, LayerCheck.storeMembership])
    else
      let cachedAnalysis := getCached st1.cache now (postAnalysisKey post.id)
      let ar := analyzePostWithOpenAI oracle st1.cache now post.id
      let st2 := { st1 with
        cache := ar.2.1,
        classified := if ar.2.2 = 1 then st1.classified ++ [post.id] else st1.classified }
      let st3 :=
        if cachedAnalysis.isSome then { st2 with cacheHits := st2.cacheHits + 1 }
        else { st2 with cacheMisses := st2.cacheMisses + 1 }
      (handleVerdict username post ar.1 now st3,
       [LayerCheck.runLocalSet, LayerCheck.storeMembership, LayerCheck.cacheLookup]
         ++ (if ar.2.2 = 1 then [LayerCheck.classifierCall] else []))

/-- The per-account loop body: the fetched posts are an oracle input,
none standing for a failed or empty fetch (the account is skipped). -/
def processAccount (oracle : String → OpenAIOutcome) (now : Nat) (st : RunState)
    (username : String) (fetched : Option (List InstagramPost)) : RunState :=
  match fetched with
  | none => st
  | some posts => posts.foldl (fun s p => (processPost oracle now username s p).1) st

def initialRunState (db : EventsDb) (c : Cache Analysis) : RunState :=
  { analyzedPostIds := [], db := db, cache := c, events := [],
    cacheHits := 0, cacheMisses := 0, totalEvents := 0, classified := [] }

/-- scrapeAndDetectEvents of event-detector.ts over the per-run state:
each account's fetched posts are processed in order against the store and
cache carried in from before the run. -/
def scrapeAndDetectEvents (oracle : String → OpenAIOutcome) (now : Nat)
    (accounts : List (String × Option (List InstagramPost)))
    (db : EventsDb) (c : Cache Analysis) : RunState :=
  accounts.foldl (fun st a => processAccount oracle now st a.1 a.2)
    (initialRunState db c)

/-! Characterization lemmas for the pipeline step. -/

theorem analyzePost_hit (oracle : String → OpenAIOutcome) (c : Cache Analysis)
    (now : Nat) (pid : String) (a : Analysis)
    (h : getCached c now (postAnalysisKey pid) = some a) :
    analyzePostWithOpenAI oracle c now pid = (a, c, 0) := by
  unfold analyzePostWithOpenAI getCachedOrCompute
  rw [h]

theorem analyzePost_miss (oracle : String → OpenAIOutcome) (c : Cache Analysis)
    (now : Nat) (pid : String)
    (h : getCached c now (postAnalysisKey pid) = none) :
    analyzePostWithOpenAI oracle c now pid
      = (openAIProducer (oracle pid),
         setCached c now (postAnalysisKey pid) (openAIProducer (oracle pid))
           OPENAI_ANALYSIS_CACHE_TTL, 1) := by
  unfold analyzePostWithOpenAI getCachedOrCompute
  rw [h]

theorem handleVerdict_preserves (u : String) (p : InstagramPost) (a : Analysis)
    (now : Nat) (st : RunState) :
    (handleVerdict u p a now st).classified = st.classified ∧
    (handleVerdict u p a now st).analyzedPostIds = st.analyzedPostIds ∧
    (handleVerdict u p a now st).cache = st.cache := by
  unfold handleVerdict
  split <;> exact ⟨rfl, rfl, rfl⟩

theorem processPost_trace (oracle : String → OpenAIOutcome) (now : Nat)
    (username : String) (st : RunState) (post : InstagramPost) :
    (processPost oracle now username st post).2
      = (if st.analyzedPostIds.contains post.id then [LayerCheck.runLocalSet]
         else if eventExists st.db post.id then
           [LayerCheck.runLocalSet, LayerCheck.storeMembership]
         else if (getCached st.cache now (postAnalysisKey post.id)).isSome then
           [LayerCheck.runLocalSet, LayerCheck.storeMembership, LayerCheck.cacheLookup]
         else [LayerCheck.runLocalSet, LayerCheck.storeMembership, LayerCheck.cacheLookup,
               LayerCheck.classifierCall]) := by
  unfold processPost
  by_cases h1 : post.id ∈ st.analyzedPostIds
  · simp [h1]
  · by_cases h2 : eventExists st.db post.id
    · simp [h1, h2]
    · match h3 : getCached st.cache now (postAnalysisKey post.id) with
      | some a =>
        simp [h1, h2, h3, analyzePost_hit oracle st.cache now post.id a h3]
      | none =>
        simp [h1, h2, h3, analyzePost_miss oracle st.cache now post.id h3]

theorem processPost_classified (oracle : String → OpenAIOutcome) (now : Nat)
    (username : String) (st : RunState) (post : InstagramPost) :
    (processPost oracle now username st post).1.classified
      = (if st.analyzedPostIds.contains post.id = false ∧ eventExists st.db post.id = false
             ∧ getCached st.cache now (postAnalysisKey post.id) = none
         then st.classified ++ [post.id] else st.classified) := by
  unfold processPost
  by_cases h1 : post.id ∈ st.analyzedPostIds
  · simp [h1]
  · by_cases h2 : eventExists st.db post.id
    · simp [h1, h2]
    · match h3 : getCached st.cache now (postAnalysisKey post.id) with
      | some a =>
        simp [h1, h2, h3, analyzePost_hit oracle st.cache now post.id a h3,
          (handleVerdict_preserves _ _ _ _ _).1]
      | none =>
        simp [h1, h2, h3, analyzePost_miss oracle st.cache now post.id h3,
          (handleVerdict_preserves _ _ _ _ _).1]

/-- Claim C2: the deduplication layers are consulted in the exact order
run-local set, store membership, cache lookup; each positive answer
short-circuits the later layers; and the classification service is invoked
exactly when all three report the item unseen (in which case its id is
appended to the classification log). -/
theorem processPost_dedup_layer_order (oracle : String → OpenAIOutcome) (now : Nat)
    (username : String) (st : RunState) (post : InstagramPost) :
    (processPost oracle now username st post).2
      = (if st.analyzedPostIds.contains post.id then [LayerCheck.runLocalSet]
         else if eventExists st.db post.id then
           [LayerCheck.runLocalSet, LayerCheck.storeMembership]
         else if (getCached st.cache now (postAnalysisKey post.id)).isSome then
           [LayerCheck.runLocalSet, LayerCheck.storeMembership, LayerCheck.cacheLookup]
         else [LayerCheck.runLocalSet, LayerCheck.storeMembership, LayerCheck.cacheLookup,
               LayerCheck.classifierCall]) ∧
    (processPost oracle now username st post).1.classified
      = (if st.analyzedPostIds.contains post.id = false ∧ eventExists st.db post.id = false
             ∧ getCached st.cache now (postAnalysisKey post.id) = none
         then st.classified ++ [post.id] else st.classified) :=
  ⟨processPost_trace oracle now username st post,
   processPost_classified oracle now username st post⟩

theorem storeEventInSupabase_count (db : EventsDb) (e : EventPost) :
    (storeEventInSupabase db e).countP (fun x => x.post_id == e.post_id) = 1 := by
  unfold storeEventInSupabase
  rw [List.countP_cons_of_pos _ _ (by simp)]
  have h0 : (db.filter (fun x => x.post_id != e.post_id)).countP
      (fun x => x.post_id == e.post_id) = 0 := by
    rw [List.countP_eq_zero]
    intro a ha
    have := (List.mem_filter.mp ha).2
    simp_all [bne]
  rw [h0]

/-- Claim C5: a verdict is persisted (an AcceptedEvent row is built and
upserted, keyed by post_id so that the store holds exactly one row for the
id) if and only if isEvent is true and the confidence score is at least
MIN_CONFIDENCE_THRESHOLD (90); below the threshold the state is returned
unchanged and no error is raised. -/
theorem handleVerdict_threshold_persistence (username : String) (post : InstagramPost)
    (analysis : Analysis) (now : Nat) (st : RunState) :
    (analysis.isEvent = true → analysis.confidenceScore ≥ MIN_CONFIDENCE_THRESHOLD →
       (handleVerdict username post analysis now st).db
           = storeEventInSupabase st.db (mkEventPost username post analysis now) ∧
       eventExists (handleVerdict username post analysis now st).db post.id = true ∧
       (handleVerdict username post analysis now st).db.countP
           (fun e => e.post_id == post.id) = 1) ∧
    ((analysis.isEvent = false ∨ analysis.confidenceScore < MIN_CONFIDENCE_THRESHOLD) →
       handleVerdict username post analysis now st = st) := by
  constructor
  · intro h1 h2
    unfold handleVerdict
    rw [if_pos ⟨h1, h2⟩]
    refine ⟨rfl, ?_, ?_⟩
    · simp [eventExists, storeEventInSupabase, mkEventPost]
    · simpa using storeEventInSupabase_count st.db (mkEventPost username post analysis now)
  · intro h
    unfold handleVerdict
    apply if_neg
    rintro ⟨ha, hb⟩
    rcases h with h | h
    · rw [h] at ha
      exact Bool.false_ne_true ha
    · omega

def witnessPost (pid : String) : InstagramPost :=
  { id := pid, shortcode := "sc", url := none, caption := none,
    display_url := none, image_url := none, timestamp := none }

def analysis95 : Analysis :=
  { isEvent := true, eventType := some "conference", eventDetails := none,
    confidenceScore := 95 }

def analysis80 : Analysis :=
  { isEvent := true, eventType := some "conference", eventDetails := none,
    confidenceScore := 80 }

/-- Witness for C5 at the spec's concrete scenario: a verdict with
confidence 95 for post p1 is persisted; a verdict with confidence 80 for
post p2 persists nothing and raises no error. -/
theorem handleVerdict_threshold_persistence_witness :
    eventExists (handleVerdict "acct" (witnessPost "p1") analysis95 0
        (initialRunState [] [])).db "p1" = true ∧
    handleVerdict "acct" (witnessPost "p2") analysis80 0 (initialRunState [] [])
      = initialRunState [] [] :=
  ⟨((handleVerdict_threshold_persistence "acct" (witnessPost "p1") analysis95 0
      (initialRunState [] [])).1 rfl (by decide)).2.1,
   (handleVerdict_threshold_persistence "acct" (witnessPost "p2") analysis80 0
      (initialRunState [] [])).2 (Or.inr (by decide))⟩

/-- Claim C9: when every retry attempt of the wrapped OpenAI call fails, or
the response has no choices, or no JSON object can be parsed from the
response text, analyzePostWithOpenAI swallows the error and returns the
fallback verdict (isEvent false, confidence 0); since the fallback is the
producer's successful return value, it is stored in the cache under
post_analysis:(post id) with the 7-day TTL, and any later analysis of the
same id issued before that entry expires is answered from the cache,
returning the fallback with zero further OpenAI invocations. -/
theorem analyzePost_failure_fallback_cached (oracle : String → OpenAIOutcome)
    (c : Cache Analysis) (now : Nat) (pid : String)
    (hmiss : getCached c now (postAnalysisKey pid) = none)
    (hfail : oracle pid = OpenAIOutcome.retriesExhausted ∨
             oracle pid = OpenAIOutcome.emptyChoices ∨
             oracle pid = OpenAIOutcome.noJsonInResponse ∨
             oracle pid = OpenAIOutcome.jsonParseFailure) :
    (analyzePostWithOpenAI oracle c now pid).1 = fallbackAnalysis ∧
    (analyzePostWithOpenAI oracle c now pid).2.1
        = setCached c now (postAnalysisKey pid) fallbackAnalysis
            OPENAI_ANALYSIS_CACHE_TTL ∧
    OPENAI_ANALYSIS_CACHE_TTL = 60 * 60 * 24 * 7 ∧
    (∀ now₂, now₂ ≤ now + OPENAI_ANALYSIS_CACHE_TTL * 1000 →
       (analyzePostWithOpenAI oracle
           (analyzePostWithOpenAI oracle c now pid).2.1 now₂ pid).2.2 = 0 ∧
       (analyzePostWithOpenAI oracle
           (analyzePostWithOpenAI oracle c now pid).2.1 now₂ pid).1
         = fallbackAnalysis) := by
  have hprod : openAIProducer (oracle pid) = fallbackAnalysis := by
    rcases hfail with h | h | h | h <;> rw [h] <;> rfl
  have hm := analyzePost_miss oracle c now pid hmiss
  rw [hprod] at hm
  refine ⟨by rw [hm], by rw [hm], rfl, ?_⟩
  intro now₂ hnow₂
  have hget : getCached (analyzePostWithOpenAI oracle c now pid).2.1 now₂
      (postAnalysisKey pid) = some fallbackAnalysis := by
    rw [hm]
    rw [getCached_setCached_self c now now₂ (postAnalysisKey pid) fallbackAnalysis
      OPENAI_ANALYSIS_CACHE_TTL (by decide)]
    rw [if_neg (by omega)]
  have hh := analyzePost_hit oracle (analyzePostWithOpenAI oracle c now pid).2.1 now₂
    pid fallbackAnalysis hget
  rw [hh]
  exact ⟨rfl, rfl⟩

/-- Witness for C9 at a concrete input: an empty-choices response for post
p1 on an empty cache. -/
theorem analyzePost_failure_fallback_cached_witness :
    (analyzePostWithOpenAI (fun _ => OpenAIOutcome.emptyChoices) [] 0 "p1").1
        = fallbackAnalysis ∧
    (analyzePostWithOpenAI (fun _ => OpenAIOutcome.emptyChoices)
        (analyzePostWithOpenAI (fun _ => OpenAIOutcome.emptyChoices) [] 0 "p1").2.1
        604800000 "p1").2.2 = 0 := by
  have h := analyzePost_failure_fallback_cached (fun _ => OpenAIOutcome.emptyChoices)
    [] 0 "p1" (by rfl) (Or.inr (Or.inl rfl))
  exact ⟨h.1, (h.2.2.2 604800000 (by decide)).1⟩

/-! Further characterization lemmas, used for the cross-run
deduplication analysis. -/

theorem postAnalysisKey_inj (a b : String) (h : postAnalysisKey a = postAnalysisKey b) :
    a = b := by
  unfold postAnalysisKey at h
  have hd := congrArg String.data h
  simp only [String.data_append] at hd
  exact String.ext (List.append_cancel_left hd)

theorem processPost_analyzed (oracle : String → OpenAIOutcome) (now : Nat)
    (username : String) (st : RunState) (post : InstagramPost) :
    (processPost oracle now username st post).1.analyzedPostIds
      = if post.id ∈ st.analyzedPostIds then st.analyzedPostIds
        else post.id :: st.analyzedPostIds := by
  unfold processPost
  by_cases h1 : post.id ∈ st.analyzedPostIds
  · simp [h1]
  · by_cases h2 : eventExists st.db post.id
    · simp [h1, h2]
    · match h3 : getCached st.cache now (postAnalysisKey post.id) with
      | some a =>
        simp [h1, h2, h3, analyzePost_hit oracle st.cache now post.id a h3,
          (handleVerdict_preserves _ _ _ _ _).2.1]
      | none =>
        simp [h1, h2, h3, analyzePost_miss oracle st.cache now post.id h3,
          (handleVerdict_preserves _ _ _ _ _).2.1]

theorem handleVerdict_db (u : String) (p : InstagramPost) (a : Analysis) (now : Nat)
    (st : RunState) :
    (handleVerdict u p a now st).db = st.db ∨
    ∃ e : EventPost, (handleVerdict u p a now st).db = storeEventInSupabase st.db e := by
  unfold handleVerdict
  split
  · exact Or.inr ⟨_, rfl⟩
  · exact Or.inl rfl

theorem processPost_db (oracle : String → OpenAIOutcome) (now : Nat)
    (username : String) (st : RunState) (post : InstagramPost) :
    (processPost oracle now username st post).1.db = st.db ∨
    ∃ e : EventPost, (processPost oracle now username st post).1.db
        = storeEventInSupabase st.db e := by
  unfold processPost
  by_cases h1 : post.id ∈ st.analyzedPostIds
  · left
    simp [h1]
  · by_cases h2 : eventExists st.db post.id
    · left
      simp [h1, h2]
    · match h3 : getCached st.cache now (postAnalysisKey post.id) with
      | some a =>
        simpa [h1, h2, h3, analyzePost_hit oracle st.cache now post.id a h3]
          using handleVerdict_db username post a now _
      | none =>
        simpa [h1, h2, h3, analyzePost_miss oracle st.cache now post.id h3]
          using handleVerdict_db username post (openAIProducer (oracle post.id)) now _

theorem eventExists_store_mono (db : EventsDb) (e : EventPost) (pid : String)
    (h : eventExists db pid = true) :
    eventExists (storeEventInSupabase db e) pid = true := by
  unfold eventExists at h ⊢
  unfold storeEventInSupabase
  rw [List.any_eq_true] at h ⊢
  obtain ⟨x, hx, hpx⟩ := h
  by_cases hpe : x.post_id = e.post_id
  · refine ⟨e, List.mem_cons_self _ _, ?_⟩
    rw [← hpe]
    exact hpx
  · refine ⟨x, List.mem_cons_of_mem _ ?_, hpx⟩
    rw [List.mem_filter]
    exact ⟨hx, by simp [bne, hpe]⟩

theorem processPost_db_mono (oracle : String → OpenAIOutcome) (now : Nat)
    (username : String) (st : RunState) (post : InstagramPost) (pid : String)
    (h : eventExists st.db pid = true) :
    eventExists (processPost oracle now username st post).1.db pid = true := by
  rcases processPost_db oracle now username st post with hdb | ⟨e, hdb⟩
  · rw [hdb]
    exact h
  · rw [hdb]
    exact eventExists_store_mono st.db e pid h

theorem processPost_cache (oracle : String → OpenAIOutcome) (now : Nat)
    (username : String) (st : RunState) (post : InstagramPost) :
    (processPost oracle now username st post).1.cache = st.cache ∨
    ((processPost oracle now username st post).1.cache
        = setCached st.cache now (postAnalysisKey post.id)
            (openAIProducer (oracle post.id)) OPENAI_ANALYSIS_CACHE_TTL ∧
     getCached st.cache now (postAnalysisKey post.id) = none) := by
  unfold processPost
  by_cases h1 : post.id ∈ st.analyzedPostIds
  · left
    simp [h1]
  · by_cases h2 : eventExists st.db post.id
    · left
      simp [h1, h2]
    · match h3 : getCached st.cache now (postAnalysisKey post.id) with
      | some a =>
        left
        simp [h1, h2, h3, analyzePost_hit oracle st.cache now post.id a h3,
          (handleVerdict_preserves _ _ _ _ _).2.2]
      | none =>
        right
        refine ⟨?_, rfl⟩
        simp [h1, h2, h3, analyzePost_miss oracle st.cache now post.id h3,
          (handleVerdict_preserves _ _ _ _ _).2.2]

/-! The three per-item deduplication invariants, preserved by every
pipeline step. -/

theorem foldl_invariant {α β : Type} (P : α → Prop) (f : α → β → α) :
    ∀ (l : List β) (s : α), P s → (∀ s x, P s → P (f s x)) → P (l.foldl f s) := by
  intro l
  induction l with
  | nil => intro s h _; exact h
  | cons x xs ih => intro s h hstep; exact ih (f s x) (hstep s x h) hstep

/-- Invariant A: every id appears in the classification log at most once,
and every logged id is in the run-local set. -/
def InvLocal (st : RunState) : Prop :=
  ∀ q : String, st.classified.count q ≤ 1 ∧ (q ∈ st.classified → q ∈ st.analyzedPostIds)

/-- Invariant B, for a fixed id: the id has a row in the store and was not
classified in this run. -/
def InvStore (pid : String) (st : RunState) : Prop :=
  eventExists st.db pid = true ∧ pid ∉ st.classified

/-- Invariant C, for a fixed id and run time: the id's verdict is cached
and unexpired, and the id was not classified in this run. -/
def InvCache (now : Nat) (pid : String) (st : RunState) : Prop :=
  (getCached st.cache now (postAnalysisKey pid)).isSome = true ∧ pid ∉ st.classified

theorem processPost_preserves_InvLocal (oracle : String → OpenAIOutcome) (now : Nat)
    (username : String) (st : RunState) (post : InstagramPost)
    (h : InvLocal st) : InvLocal (processPost oracle now username st post).1 := by
  intro q
  rw [processPost_classified, processPost_analyzed]
  by_cases hc : st.analyzedPostIds.contains post.id = false
      ∧ eventExists st.db post.id = false
      ∧ getCached st.cache now (postAnalysisKey post.id) = none
  · rw [if_pos hc]
    have hnotmem : post.id ∉ st.analyzedPostIds := by
      simpa using hc.1
    rw [if_neg hnotmem]
    have hnotclass : post.id ∉ st.classified := fun hq => hnotmem ((h post.id).2 hq)
    constructor
    · rw [List.count_append]
      by_cases hq : q = post.id
      · subst hq
        rw [List.count_eq_zero.mpr hnotclass]
        simp
      · have h0 : List.count q [post.id] = 0 := by
          rw [List.count_eq_zero]
          simp [hq]
        rw [h0]
        simpa using (h q).1
    · intro hq
      rcases List.mem_append.mp hq with hq | hq
      · exact List.mem_cons_of_mem _ ((h q).2 hq)
      · simp only [List.mem_singleton] at hq
        subst hq
        exact List.mem_cons_self _ _
  · rw [if_neg hc]
    refine ⟨(h q).1, fun hq => ?_⟩
    split
    · exact (h q).2 hq
    · exact List.mem_cons_of_mem _ ((h q).2 hq)

theorem processPost_preserves_InvStore (oracle : String → OpenAIOutcome) (now : Nat)
    (username : String) (st : RunState) (post : InstagramPost) (pid : String)
    (h : InvStore pid st) : InvStore pid (processPost oracle now username st post).1 := by
  refine ⟨processPost_db_mono oracle now username st post pid h.1, ?_⟩
  rw [processPost_classified]
  by_cases hc : st.analyzedPostIds.contains post.id = false
      ∧ eventExists st.db post.id = false
      ∧ getCached st.cache now (postAnalysisKey post.id) = none
  · rw [if_pos hc]
    have hne : pid ≠ post.id := by
      intro he
      rw [← he] at hc
      rw [h.1] at hc
      exact absurd hc.2.1 (by decide)
    intro hq
    rcases List.mem_append.mp hq with hq | hq
    · exact h.2 hq
    · simp only [List.mem_singleton] at hq
      exact hne hq
  · rw [if_neg hc]
    exact h.2

theorem processPost_preserves_InvCache (oracle : String → OpenAIOutcome) (now : Nat)
    (username : String) (st : RunState) (post : InstagramPost) (pid : String)
    (h : InvCache now pid st) : InvCache now pid (processPost oracle now username st post).1 := by
  have hcache : (getCached (processPost oracle now username st post).1.cache now
      (postAnalysisKey pid)).isSome = true := by
    rcases processPost_cache oracle now username st post with hc | ⟨hc, hmiss⟩
    · rw [hc]
      exact h.1
    · have hne : postAnalysisKey post.id ≠ postAnalysisKey pid := by
        intro he
        have hs := h.1
        rw [← he, hmiss] at hs
        simp at hs
      rw [hc, getCached_setCached_other st.cache now now (postAnalysisKey post.id)
        (postAnalysisKey pid) _ _ hne]
      exact h.1
  refine ⟨hcache, ?_⟩
  rw [processPost_classified]
  by_cases hc : st.analyzedPostIds.contains post.id = false
      ∧ eventExists st.db post.id = false
      ∧ getCached st.cache now (postAnalysisKey post.id) = none
  · rw [if_pos hc]
    have hne : pid ≠ post.id := by
      intro he
      have := h.1
      rw [he, hc.2.2] at this
      exact Bool.false_ne_true this
    intro hq
    rcases List.mem_append.mp hq with hq | hq
    · exact h.2 hq
    · simp only [List.mem_singleton] at hq
      exact hne hq
  · rw [if_neg hc]
    exact h.2

theorem processAccount_preserves (P : RunState → Prop) (oracle : String → OpenAIOutcome)
    (now : Nat) (username : String) (fetched : Option (List InstagramPost))
    (hstep : ∀ (st : RunState) (post : InstagramPost),
      P st → P ((processPost oracle now username st post).1))
    (st : RunState) (h : P st) :
    P (processAccount oracle now st username fetched) := by
  match fetched with
  | none => exact h
  | some posts => exact foldl_invariant P _ posts st h (fun s x hs => hstep s x hs)

theorem scrapeAndDetectEvents_preserves (P : RunState → Prop)
    (oracle : String → OpenAIOutcome) (now : Nat)
    (accounts : List (String × Option (List InstagramPost)))
    (db : EventsDb) (c : Cache Analysis)
    (hstep : ∀ (username : String) (st : RunState) (post : InstagramPost),
      P st → P ((processPost oracle now username st post).1))
    (h0 : P (initialRunState db c)) :
    P (scrapeAndDetectEvents oracle now accounts db c) := by
  unfold scrapeAndDetectEvents
  refine foldl_invariant P _ accounts _ h0 ?_
  intro s a hs
  exact processAccount_preserves P oracle now a.1 a.2
    (fun st post h => hstep a.1 st post h) s hs

/-! ### Claim C1: at-most-once classification

The lifetime claim fails on the code: an item whose verdict is not
persisted (for example a not-an-event verdict) is protected only by the
7-day cache entry, and once that entry expires a later run invokes the
classification service for the same id again. -/

/-- A classification oracle answering every post with a not-an-event
verdict. -/
def cxOracle : String → OpenAIOutcome :=
  fun _ => OpenAIOutcome.parsedResponse fallbackAnalysis

/-- First run at time 0 over post p1 with empty store and cache. -/
def cxRun1 : RunState :=
  scrapeAndDetectEvents cxOracle 0 [("acct", some [witnessPost "p1"])] [] []

/-- Second run over the same post, seven days and one millisecond later,
carrying the first run's store and cache. -/
def cxRun2 : RunState :=
  scrapeAndDetectEvents cxOracle 604800001 [("acct", some [witnessPost "p1"])]
    cxRun1.db cxRun1.cache

/-- Counterexample to claim C1 as stated: the classification service is
invoked for post p1 in the first run (not-an-event verdict, so nothing is
persisted) and invoked for p1 again in a second run issued after the 7-day
cache entry expired, for a total of two invocations for the same id. -/
theorem classifier_reinvoked_after_cache_expiry :
    cxRun1.classified = ["p1"] ∧ cxRun2.classified = ["p1"] ∧
    (cxRun1.classified ++ cxRun2.classified).count "p1" = 2 := by
  refine ⟨rfl, rfl, rfl⟩

/-- Claim C1 (amended): within one pipeline run the classification service
is invoked at most once per item id; and a run never invokes the service
for an id that already has a row in the persistent store at the start of
the run, nor for an id whose cached verdict is unexpired at the run's
time.  (Only after the cached verdict of a non-persisted item expires may
a later run classify the id again.) -/
theorem classification_at_most_once_guarded (oracle : String → OpenAIOutcome)
    (now : Nat) (accounts : List (String × Option (List InstagramPost)))
    (db : EventsDb) (c : Cache Analysis) (pid : String) :
    (scrapeAndDetectEvents oracle now accounts db c).classified.count pid ≤ 1 ∧
    (eventExists db pid = true →
       pid ∉ (scrapeAndDetectEvents oracle now accounts db c).classified) ∧
    ((getCached c now (postAnalysisKey pid)).isSome = true →
       pid ∉ (scrapeAndDetectEvents oracle now accounts db c).classified) := by
  refine ⟨?_, ?_, ?_⟩
  · have hinv := scrapeAndDetectEvents_preserves InvLocal oracle now accounts db c
      (fun u st post h => processPost_preserves_InvLocal oracle now u st post h)
      (fun q => ⟨by simp [initialRunState], by simp [initialRunState]⟩)
    exact (hinv pid).1
  · intro hdb
    have hinv := scrapeAndDetectEvents_preserves (InvStore pid) oracle now accounts db c
      (fun u st post h => processPost_preserves_InvStore oracle now u st post pid h)
      ⟨hdb, by simp [initialRunState]⟩
    exact hinv.2
  · intro hcache
    have hinv := scrapeAndDetectEvents_preserves (InvCache now pid) oracle now accounts db c
      (fun u st post h => processPost_preserves_InvCache oracle now u st post pid h)
      ⟨hcache, by simp [initialRunState]⟩
    exact hinv.2

/-- A cache holding an unexpired verdict for post p1. -/
def witnessCache : Cache Analysis :=
  setCached [] 0 (postAnalysisKey "p1") fallbackAnalysis OPENAI_ANALYSIS_CACHE_TTL

/-- Witness for the amended C1 at a concrete input: with p1's verdict
cached and unexpired, a run over p1 never invokes the classification
service for p1. -/
theorem classification_at_most_once_guarded_witness :
    (getCached witnessCache 5 (postAnalysisKey "p1")).isSome = true ∧
    "p1" ∉ (scrapeAndDetectEvents cxOracle 5 [("acct", some [witnessPost "p1"])]
        [] witnessCache).classified :=
  ⟨by decide, (classification_at_most_once_guarded cxOracle 5
      [("acct", some [witnessPost "p1"])] [] witnessCache "p1").2.2 (by decide)⟩

/-! ### Followings statistics (src/src/pages/api/followings/stats.ts)

computeFollowingsStats reads the current followings list from the
watchlist row, then for each of the day/week/month windows asks
getDifferenceFromDate for the followings_count of the nearest
watchlist_history row at or before the window boundary (order by
created_at descending, limit 1; null when none exists), and computes each
change as currentCount - (historicalResult || currentCount).  JavaScript
"x || y" on numbers treats 0 as falsy, which jsOrNumber embeds. -/

/-- A row of the watchlist_history table; created_at is in milliseconds. -/
structure HistorySample where
  account : String
  followings_count : Int
  created_at : Nat
deriving DecidableEq, Repr

/-- JavaScript "a || b" for a nullable number (null and 0 are falsy). -/
def jsOrNumber (a : Option Int) (b : Int) : Int :=
  match a with
  | none => b
  | some x => if x = 0 then b else x

/-- The query of getDifferenceFromDate: the history row for the account
with the greatest created_at at or before the date (order by created_at
descending, limit 1). -/
def latestSampleAtOrBefore (history : List HistorySample) (account : String)
    (date : Nat) : Option HistorySample :=
  (history.filter (fun s => s.account == account && decide (s.created_at ≤ date))).foldl
    (fun acc s =>
      match acc with
      | none => some s
      | some b => if b.created_at < s.created_at then some s else some b)
    none

/-- getDifferenceFromDate of stats.ts: the followings_count of the nearest
sample at or before the date, or null when no sample exists. -/
def getDifferenceFromDate (history : List HistorySample) (account : String)
    (date : Nat) : Option Int :=
  match latestSampleAtOrBefore history account date with
  | none => none
  | some s => some s.followings_count

structure FollowingsStats where
  totalFollowings : Int
  dailyChange : Int
  weeklyChange : Int
  monthlyChange : Int
deriving DecidableEq, Repr

/-- computeFollowingsStats of stats.ts.  The watchlist followings column is
an oracle input (none when it is not an array, in which case the current
count is 0). -/
def computeFollowingsStats (followings : Option (List String))
    (history : List HistorySample) (account : String)
    (oneDayAgo oneWeekAgo oneMonthAgo : Nat) : FollowingsStats :=
  let currentFollowingsCount : Int :=
    match followings with
    | some l => (l.length : Int)
    | none => 0
  { totalFollowings := currentFollowingsCount
    dailyChange := currentFollowingsCount -
      jsOrNumber (getDifferenceFromDate history account oneDayAgo) currentFollowingsCount
    weeklyChange := currentFollowingsCount -
      jsOrNumber (getDifferenceFromDate history account oneWeekAgo) currentFollowingsCount
    monthlyChange := currentFollowingsCount -
      jsOrNumber (getDifferenceFromDate history account oneMonthAgo) currentFollowingsCount }

theorem change_zero_of_zero_or_missing (hist : Option Int) (current : Int)
    (h : hist = some 0 ∨ hist = none) :
    current - jsOrNumber hist current = 0 := by
  rcases h with h | h <;> rw [h] <;> simp [jsOrNumber]

/-- Claim C10: in the followings statistics, a historical sample whose
stored count is 0 is treated identically to a missing sample: because each
change is computed as currentCount - (historicalResult || currentCount)
and 0 is falsy in JavaScript, whenever the nearest sample at or before a
window boundary has followings_count 0 (or no sample exists), the change
reported for that window is 0 — an account that grew from 0 to N
followings reports a change of 0, not +N. -/
theorem followings_zero_sample_as_missing (followings : Option (List String))
    (history : List HistorySample) (account : String)
    (oneDayAgo oneWeekAgo oneMonthAgo : Nat) :
    ((getDifferenceFromDate history account oneDayAgo = some 0 ∨
        getDifferenceFromDate history account oneDayAgo = none) →
      (computeFollowingsStats followings history account oneDayAgo oneWeekAgo
          oneMonthAgo).dailyChange = 0) ∧
    ((getDifferenceFromDate history account oneWeekAgo = some 0 ∨
        getDifferenceFromDate history account oneWeekAgo = none) →
      (computeFollowingsStats followings history account oneDayAgo oneWeekAgo
          oneMonthAgo).weeklyChange = 0) ∧
    ((getDifferenceFromDate history account oneMonthAgo = some 0 ∨
        getDifferenceFromDate history account oneMonthAgo = none) →
      (computeFollowingsStats followings history account oneDayAgo oneWeekAgo
          oneMonthAgo).monthlyChange = 0) :=
  ⟨fun h => change_zero_of_zero_or_missing _ _ h,
   fun h => change_zero_of_zero_or_missing _ _ h,
   fun h => change_zero_of_zero_or_missing _ _ h⟩

/-- Witness for C10 at a concrete input: an account that grew from 0
followings (one sample with count 0 a day ago) to 3 followings reports a
daily change of 0, not +3. -/
theorem followings_zero_sample_as_missing_witness :
    getDifferenceFromDate [⟨"alice", 0, 100⟩] "alice" 200 = some 0 ∧
    (computeFollowingsStats (some ["a", "b", "c"]) [⟨"alice", 0, 100⟩] "alice"
        200 300 400).totalFollowings = 3 ∧
    (computeFollowingsStats (some ["a", "b", "c"]) [⟨"alice", 0, 100⟩] "alice"
        200 300 400).dailyChange = 0 :=
  ⟨by decide, by decide,
   (followings_zero_sample_as_missing (some ["a", "b", "c"]) [⟨"alice", 0, 100⟩]
      "alice" 200 300 400).1 (Or.inl (by decide))⟩

end InstagramWatcher
